import Mathlib

/-!
Verification of the world-map country extractor
(src/世界国家/deepseek_python_20260112_b8861a.py) against its
natural-language specification.

The embedding models each Python function over explicit data:

* an SVG `path` element (or a lexically matched `<path ...>` tag) is a
  list of attribute name/value pairs in document order (`Attrs`);
  attribute values are assumed to contain neither a double quote nor an
  equals sign, so that a regular-expression search for the substring
  pattern NAME="VALUE" inside the rendered tag text finds exactly the
  first attribute whose name has NAME as a suffix — `searchAttrSuffix`
  below is that search;
* a Python dict (the per-country `country_info` and the `type_counts`
  accumulator) is an association list in key-insertion order, read by
  `getVal`, which returns the first binding (dict keys are unique so
  this is exact);
* `ET.parse` is abstracted by its three observable outcomes
  (`ParseOutcome`): a successful parse yielding the path nodes, a
  well-formedness failure (`xml.etree.ElementTree.ParseError`), or an
  OS-level error such as a missing file, which the `except` clause on
  line 53 of the source does not catch;
* the stdlib `json` codec is modelled by the abstract JSON value tree
  it writes (`JsonVal`) together with the per-string text rendering of
  `ensure_ascii=False` (`jsonRenderString`);
* console output of `print_countries_table` is modelled by the data it
  prints (`TableOutput`): the total count, the numbered, truncated rows,
  and the optional omitted-count trailer.
-/

/-- Attribute lists and record dicts: name/value pairs in order. -/
abbrev Attrs := List (String × String)

/-- First binding of key `k` in an association list; models both
`dict.get`/`dict[...]` on Python dicts and `Element.get` on parsed
XML attributes (`none` models a missing key). -/
def getVal (k : String) : List (String × α) → Option α
  | [] => none
  | (k₀, v) :: rest => if k₀ = k then some v else getVal k rest

/-- Python truthiness of an optional string (`dict.get(k)` used in a
condition): present and non-empty. -/
def truthy : Option String → Bool
  | none => false
  | some s => s ≠ ""

/-- `suffixMatch pat s` decides whether `pat` is a suffix of `s`
(on explicit character lists, so it evaluates in the kernel). -/
def suffixMatch (pat : List Char) : List Char → Bool
  | [] => pat == []
  | c :: rest => if pat == c :: rest then true else suffixMatch pat rest

/-- Value of the first attribute whose name ends in `pat`.  This is
what `re.search(pat + '="([^"]*)"', tag)` extracts from the rendered
tag text (see the module comment for the rendering assumptions): the
first occurrence of the substring `pat="` lies where some attribute
name ending in `pat` meets its opening quote. -/
def searchAttrSuffix (pat : String) : Attrs → Option String
  | [] => none
  | (k, v) :: rest => if suffixMatch pat.data k.data then some v else searchAttrSuffix pat rest

/-- Singleton or empty dict fragment: the Python pattern of setting a
dict key only when the corresponding regex matched. -/
def optEntry (k : String) : Option String → Attrs
  | some v => [(k, v)]
  | none => []

/-! ## The two extraction strategies (lines 6-125 of the source) -/

/-- `name_zh` as computed by the XML strategy, lines 39 and 45-47:
`path.get('data-name_zht', path.get('data-name_zh', ''))`, then
replaced by `id` when it is empty and `id` is non-empty. -/
def xmlNameZh (a : Attrs) : String :=
  let nameZh0 :=
    match getVal "data-name_zht" a with
    | some v => v
    | none => (getVal "data-name_zh" a).getD ""
  if nameZh0 = "" ∧ (getVal "id" a).getD "" ≠ "" then (getVal "id" a).getD "" else nameZh0

/-- The `country_info` dict built by the XML strategy for one `path`
element, lines 33-47: every key is set, absent attributes default to
the empty string. -/
def xmlCountryInfo (a : Attrs) : Attrs :=
  [("id", (getVal "id" a).getD ""),
   ("name_zh", xmlNameZh a),
   ("name_en", (getVal "data-name_en" a).getD ""),
   ("formal_en", (getVal "data-formal_en" a).getD ""),
   ("type", (getVal "data-type" a).getD ""),
   ("sovereignty", (getVal "data-sovereignt" a).getD "")]

/-- `name_zh` as computed by the regex strategy, lines 91-100:
`data-name_zht` pattern first, else `data-name_zh` pattern, else the
already extracted `id` when it is truthy; `none` when no branch sets
the key. -/
def regexNameZh (a : Attrs) : Option String :=
  match searchAttrSuffix "data-name_zht" a with
  | some v => some v
  | none =>
    match searchAttrSuffix "data-name_zh" a with
    | some v => some v
    | none =>
      match searchAttrSuffix "id" a with
      | some v => if v = "" then none else some v
      | none => none

/-- The `country_info` dict built by the regex strategy for one matched
tag, lines 83-116: each key is set only when its pattern matched, in
the source order id, name_zh, name_en, formal_en, type, sovereignty. -/
def regexCountryInfo (a : Attrs) : Attrs :=
  optEntry "id" (searchAttrSuffix "id" a) ++
  optEntry "name_zh" (regexNameZh a) ++
  optEntry "name_en" (searchAttrSuffix "data-name_en" a) ++
  optEntry "formal_en" (searchAttrSuffix "data-formal_en" a) ++
  optEntry "type" (searchAttrSuffix "data-type" a) ++
  optEntry "sovereignty" (searchAttrSuffix "data-sovereignt" a)

/-- The retention filter shared by lines 50 and 119:
`country_info.get('name_zh') or country_info.get('name_en')`. -/
def keep (ci : Attrs) : Bool :=
  truthy (getVal "name_zh" ci) || truthy (getVal "name_en" ci)

/-- Lines 32-51: records produced by the XML strategy from the list of
`path` elements, in document order, filtered. -/
def xmlRecords (doc : List Attrs) : List Attrs :=
  doc.filterMap fun a =>
    let ci := xmlCountryInfo a
    if keep ci then some ci else none

/-- Lines 82-120: records produced by the regex strategy from the list
of matched `<path ...>` tags, in text order, filtered. -/
def regexRecords (tags : List Attrs) : List Attrs :=
  tags.filterMap fun a =>
    let ci := regexCountryInfo a
    if keep ci then some ci else none

/-- `extract_countries_with_regex`, lines 60-125: on any failure to
open or read the file (`raw = none`) the broad `except` clause prints
a message and the function returns the empty list built so far. -/
def extract_countries_with_regex (raw : Option (List Attrs)) : List Attrs :=
  match raw with
  | some tags => regexRecords tags
  | none => []

/-- Observable outcomes of `ET.parse(file_path)` on line 20. -/
inductive ParseOutcome where
  /-- The file parsed as well-formed XML; the payload is the list of
  `path` elements found by the `findall` calls on lines 28-30. -/
  | ok (paths : List Attrs)
  /-- The file was read but is not well-formed XML:
  `xml.etree.ElementTree.ParseError`. -/
  | malformed
  /-- An OS-level error (missing file, permission, ...), raised by
  `ET.parse` before or during reading; not an `ET.ParseError`. -/
  | osError (msg : String)

/-- One input file, as the two strategies observe it. -/
structure SvgSource where
  /-- What `ET.parse` does on this file. -/
  parse : ParseOutcome
  /-- The `<path ...>` tags the regex pass finds in the raw text, or
  `none` when the file cannot be opened or read as text. -/
  raw : Option (List Attrs)

/-- `extract_countries_from_svg`, lines 6-58.  The `try` block covers
the parse and the XML extraction; `except ET.ParseError` (line 53)
delegates to the regex extractor; any other exception — in particular
an `OSError` from `ET.parse` on an unreadable path — is not caught and
propagates to the caller, modelled by `Except.error`. -/
def extract_countries_from_svg (src : SvgSource) : Except String (List Attrs) :=
  match src.parse with
  | .ok paths => .ok (xmlRecords paths)
  | .malformed => .ok (extract_countries_with_regex src.raw)
  | .osError msg => .error msg

/-! ## Sanity checks on the concrete scenarios of spec section 8 -/

example :
    xmlRecords [[("id", "CHN"), ("data-name_zht", "中国"), ("data-name_en", "China"),
                 ("data-type", "Sovereign country"), ("data-sovereignt", "China")]] =
      [[("id", "CHN"), ("name_zh", "中国"), ("name_en", "China"), ("formal_en", ""),
        ("type", "Sovereign country"), ("sovereignty", "China")]] := by decide

example :
    xmlRecords [[("id", "XYZ")]] =
      [[("id", "XYZ"), ("name_zh", "XYZ"), ("name_en", ""), ("formal_en", ""),
        ("type", ""), ("sovereignty", "")]] := by decide

example : xmlRecords [[("data-type", "Lake")]] = [] := by decide

example : regexRecords [[("data-type", "Lake")]] = [] := by decide

example :
    regexRecords [[("id", "USA"), ("data-name_en", "United States")]] =
      [[("id", "USA"), ("name_zh", "USA"), ("name_en", "United States")]] := by decide

/-! ## Serializers (lines 127-173 of the source) -/

/-- Abstract JSON values, as written by the stdlib `json` codec; only
the shapes the program produces are needed (strings, arrays, objects
with ordered fields). -/
inductive JsonVal where
  | str (s : String)
  | arr (xs : List JsonVal)
  | obj (fields : List (String × JsonVal))

/-- `save_to_json`, lines 127-140, modelled by the JSON value the call
`json.dump(countries, f, ensure_ascii=False, indent=2)` writes: the
record list, each dict serialized with exactly its own keys in
insertion order. -/
def save_to_json (countries : List Attrs) : JsonVal :=
  .arr (countries.map fun ci => .obj (ci.map fun p => (p.1, .str p.2)))

/-- Reading the structured file back with a JSON parser and interpreting
it as a record list: the inverse view used for the round-trip claim.
The text layer of the stdlib codec is modelled as faithful to the
`JsonVal` tree, which is its documented contract. -/
def readJsonString : JsonVal → Option String
  | .str s => some s
  | _ => none

/-- Interpret one parsed JSON object as a record dict. -/
def readJsonRecord : JsonVal → Option Attrs
  | .obj fields =>
    fields.foldr
      (fun p acc =>
        match readJsonString p.2, acc with
        | some v, some rest => some ((p.1, v) :: rest)
        | _, _ => none)
      (some [])
  | _ => none

/-- Interpret the parsed JSON document as a record sequence. -/
def readJsonCountries : JsonVal → Option (List Attrs)
  | .arr xs =>
    xs.foldr
      (fun x acc =>
        match readJsonRecord x, acc with
        | some r, some rest => some (r :: rest)
        | _, _ => none)
      (some [])
  | _ => none

/-- Elements of a JSON array (empty for non-arrays). -/
def jsonElems : JsonVal → List JsonVal
  | .arr xs => xs
  | _ => []

/-- Field names of a JSON object in order (empty for non-objects). -/
def jsonObjKeys : JsonVal → List String
  | .obj fields => fields.map Prod.fst
  | _ => []

/-- Hexadecimal digit in lower case, as the `json` encoder writes it. -/
def hexDigit (n : Nat) : Char :=
  if n < 10 then Char.ofNat (48 + n) else Char.ofNat (87 + n)

/-- `\uXXXX` escape for a code point below 0x20. -/
def uEscape (n : Nat) : String :=
  "\\u" ++ String.mk [hexDigit (n / 4096 % 16), hexDigit (n / 256 % 16),
                      hexDigit (n / 16 % 16), hexDigit (n % 16)]

/-- Per-character text rendering of the stdlib `json` encoder with
`ensure_ascii=False`: only the quote, the backslash and control
characters are escaped; everything else, all of Unicode included, is
written verbatim. -/
def jsonEscapeChar (c : Char) : String :=
  if c = '\"' then "\\\""
  else if c = '\\' then "\\\\"
  else if c = '\n' then "\\n"
  else if c = '\t' then "\\t"
  else if c = '\r' then "\\r"
  else if c = Char.ofNat 8 then "\\b"
  else if c = Char.ofNat 12 then "\\f"
  else if c.toNat < 32 then uEscape c.toNat
  else String.mk [c]

/-- Text rendering of one JSON string under `ensure_ascii=False`. -/
def jsonRenderString (s : String) : String :=
  "\"" ++ (s.data.map jsonEscapeChar).foldr (· ++ ·) "" ++ "\""

/-- Line 158: the fixed CSV column list passed to `csv.DictWriter`. -/
def csvFields : List String := ["id", "name_zh", "name_en", "formal_en", "type", "sovereignty"]

/-- Line 166: one CSV data row, `{field: country.get(field, '') for field in fields}`
in the fixed column order. -/
def csvRow (ci : Attrs) : List String :=
  csvFields.map fun f => (getVal f ci).getD ""

/-- `save_to_csv`, lines 142-173, modelled by the rows it writes:
`writer.writeheader()` then one row per record. -/
def save_to_csv (countries : List Attrs) : List (List String) :=
  csvFields :: countries.map csvRow

/-! ## Reporter and orchestration (lines 175-244 of the source) -/

/-- Line 228: `country.get('type', '未知')` — the label a record is
counted under; the default fires only when the key is absent. -/
def typeLabel (ci : Attrs) : String :=
  (getVal "type" ci).getD "未知"

/-- Number of records counted under a given label. -/
def labelCount (countries : List Attrs) (l : String) : Nat :=
  countries.countP fun ci => typeLabel ci == l

/-- One iteration of lines 227-229: increment the counter stored under
`l`, first occurrence, or append a fresh binding at the end — exactly
how a Python dict update behaves. -/
def bump (m : List (String × Nat)) (l : String) : List (String × Nat) :=
  match m with
  | [] => [(l, 1)]
  | (k, c) :: rest => if k = l then (k, c + 1) :: rest else (k, c) :: bump rest l

/-- Lines 226-229: the `type_counts` dict after the loop. -/
def type_counts (countries : List Attrs) : List (String × Nat) :=
  countries.foldl (fun m ci => bump m (typeLabel ci)) []

/-- Ordering used by line 231, `sorted(type_counts.items())`: the keys
are pairwise distinct dict keys, so sorting the pairs is sorting by
label. -/
def reportLe (a b : String × Nat) : Prop := a.1 ≤ b.1

instance : DecidableRel reportLe := fun a b => inferInstanceAs (Decidable (a.1 ≤ b.1))

instance : IsTotal (String × Nat) reportLe := ⟨fun a b => le_total a.1 b.1⟩

instance : IsTrans (String × Nat) reportLe := ⟨fun _ _ _ h₁ h₂ => le_trans h₁ h₂⟩

/-- Line 231: the type-frequency pairs in the order they are printed. -/
def type_report (countries : List Attrs) : List (String × Nat) :=
  List.insertionSort reportLe (type_counts countries)

/-- Everything `print_countries_table` (lines 175-201) prints, as data:
the total count (line 188), the numbered rows with their per-column
truncations (lines 193-198), and the optional omitted-count trailer
(lines 200-201). -/
structure TableOutput where
  total : Nat
  rows : List (Nat × String × String × String × String)
  omitted : Option Nat
deriving DecidableEq

/-- Python truthiness of the `limit` argument on lines 183 and 200:
`None` and `0` are both falsy. -/
def limitTruthy : Option Nat → Bool
  | none => false
  | some n => n ≠ 0

/-- `print_countries_table`, lines 175-201. -/
def print_countries_table (countries : List Attrs) (limit : Option Nat) : TableOutput :=
  let display := if limitTruthy limit then countries.take (limit.getD 0) else countries
  { total := countries.length
    rows := display.enum.map fun p =>
      (p.1 + 1,
       ((getVal "name_zh" p.2).getD "").take 10,
       ((getVal "name_en" p.2).getD "").take 18,
       ((getVal "type" p.2).getD "").take 13,
       ((getVal "sovereignty" p.2).getD "").take 18)
    omitted :=
      if limitTruthy limit ∧ countries.length > limit.getD 0 then
        some (countries.length - limit.getD 0)
      else none }

example : type_report (xmlRecords [[("id", "X")]]) = [("", 1)] := by decide

example :
    print_countries_table (xmlRecords [[("id", "X")]]) (some 0) =
      { total := 1, rows := [(1, "X", "", "", "")], omitted := none } := by decide

/-! ## A record with each of the six fields read through the empty
default — the value-level view under which the two extraction
strategies are meant to agree. -/

/-- A record dict projected to the six output fields, each read with
the empty-string default (`record.get(field, '')`). -/
structure CountryRecord where
  id : String
  name_zh : String
  name_en : String
  formal_en : String
  type : String
  sovereignty : String
deriving DecidableEq

/-- Projection of a record dict to its six defaulted fields. -/
def defaulted (ci : Attrs) : CountryRecord :=
  { id := (getVal "id" ci).getD ""
    name_zh := (getVal "name_zh" ci).getD ""
    name_en := (getVal "name_en" ci).getD ""
    formal_en := (getVal "formal_en" ci).getD ""
    type := (getVal "type" ci).getD ""
    sovereignty := (getVal "sovereignty" ci).getD "" }

/-- The seven attribute names the program reads. -/
def stdNames : List String :=
  ["id", "data-name_zht", "data-name_zh", "data-name_en",
   "data-formal_en", "data-type", "data-sovereignt"]

/-- A tag whose attribute names all come from `stdNames` and whose
local-name attributes, when present, carry non-empty values. -/
def stdTag (a : Attrs) : Prop :=
  (∀ p ∈ a, p.1 ∈ stdNames) ∧
  (∀ p ∈ a, p.1 = "data-name_zht" → p.2 ≠ "") ∧
  (∀ p ∈ a, p.1 = "data-name_zh" → p.2 ≠ "")

instance (a : Attrs) : Decidable (stdTag a) := by
  unfold stdTag; infer_instance

/-! ## Association-list lemmas -/

theorem getVal_cons_eq (k : String) (v : α) (l : List (String × α)) :
    getVal k ((k, v) :: l) = some v := by
  simp [getVal]

theorem getVal_cons_ne (h : k₀ ≠ k) (v : α) (l : List (String × α)) :
    getVal k ((k₀, v) :: l) = getVal k l := by
  simp [getVal, h]

theorem getVal_optEntry_ne (h : k₀ ≠ k) (v : Option String) (l : Attrs) :
    getVal k (optEntry k₀ v ++ l) = getVal k l := by
  cases v <;> simp [optEntry, getVal, h]

theorem getVal_optEntry_eq (k : String) (v : Option String) (l : Attrs)
    (hl : getVal k l = none) : getVal k (optEntry k v ++ l) = v := by
  cases v <;> simp [optEntry, getVal, hl]

theorem getVal_nil (k : String) : getVal k ([] : List (String × α)) = none := rfl

/-- On names drawn from `stdNames`, a suffix test between two standard
names is just name equality: no standard name is a proper suffix of
another. -/
theorem suffixMatch_std : ∀ k ∈ stdNames, ∀ k' ∈ stdNames,
    suffixMatch k.data k'.data = true ↔ k' = k := by
  decide

/-- Over a tag with standard attribute names, the lexical suffix search
coincides with exact dict lookup, for every standard target name. -/
theorem searchAttrSuffix_eq_getVal (k : String) (hk : k ∈ stdNames) :
    ∀ a : Attrs, (∀ p ∈ a, p.1 ∈ stdNames) → searchAttrSuffix k a = getVal k a := by
  intro a
  induction a with
  | nil => intro _; rfl
  | cons p rest ih =>
    intro h
    obtain ⟨k₀, v⟩ := p
    have hk₀ : k₀ ∈ stdNames := h (k₀, v) (List.mem_cons_self _ _)
    have hrest : ∀ p ∈ rest, p.1 ∈ stdNames := fun p hp => h p (List.mem_cons_of_mem _ hp)
    by_cases hkk : k₀ = k
    · subst hkk
      have hs : suffixMatch k₀.data k₀.data = true :=
        (suffixMatch_std k₀ hk k₀ hk₀).mpr rfl
      simp [searchAttrSuffix, getVal, hs]
    · have hs : suffixMatch k.data k₀.data = false := by
        cases h' : suffixMatch k.data k₀.data
        · rfl
        · exact absurd ((suffixMatch_std k hk k₀ hk₀).mp h') hkk
      simp [searchAttrSuffix, getVal, hs, hkk, ih hrest]

/-- Field reads on the dict built by the XML strategy. -/
theorem xmlCountryInfo_fields (a : Attrs) :
    getVal "id" (xmlCountryInfo a) = some ((getVal "id" a).getD "") ∧
    getVal "name_zh" (xmlCountryInfo a) = some (xmlNameZh a) ∧
    getVal "name_en" (xmlCountryInfo a) = some ((getVal "data-name_en" a).getD "") ∧
    getVal "formal_en" (xmlCountryInfo a) = some ((getVal "data-formal_en" a).getD "") ∧
    getVal "type" (xmlCountryInfo a) = some ((getVal "data-type" a).getD "") ∧
    getVal "sovereignty" (xmlCountryInfo a) = some ((getVal "data-sovereignt" a).getD "") := by
  refine ⟨?_, ?_, ?_, ?_, ?_, ?_⟩ <;> simp [xmlCountryInfo, getVal]

/-- Field reads on the dict built by the regex strategy. -/
theorem regexCountryInfo_fields (a : Attrs) :
    getVal "id" (regexCountryInfo a) = searchAttrSuffix "id" a ∧
    getVal "name_zh" (regexCountryInfo a) = regexNameZh a ∧
    getVal "name_en" (regexCountryInfo a) = searchAttrSuffix "data-name_en" a ∧
    getVal "formal_en" (regexCountryInfo a) = searchAttrSuffix "data-formal_en" a ∧
    getVal "type" (regexCountryInfo a) = searchAttrSuffix "data-type" a ∧
    getVal "sovereignty" (regexCountryInfo a) = searchAttrSuffix "data-sovereignt" a := by
  unfold regexCountryInfo
  generalize searchAttrSuffix "id" a = i
  generalize regexNameZh a = z
  generalize searchAttrSuffix "data-name_en" a = e
  generalize searchAttrSuffix "data-formal_en" a = f
  generalize searchAttrSuffix "data-type" a = t
  generalize searchAttrSuffix "data-sovereignt" a = s
  rcases i <;> rcases z <;> rcases e <;> rcases f <;> rcases t <;> rcases s <;>
    simp [optEntry, getVal]

/-- A `filterMap` that keeps the image of each element when a test on
the image passes is the filtered image. -/
theorem filterMap_keep_eq_filter_map (f : Attrs → Attrs) (p : Attrs → Bool) :
    ∀ doc : List Attrs,
      (doc.filterMap fun a => let ci := f a; if p ci then some ci else none) =
        (doc.map f).filter p := by
  intro doc
  induction doc with
  | nil => rfl
  | cons a rest ih =>
    simp only [List.filterMap_cons, List.map_cons, List.filter_cons]
    by_cases h : p (f a) <;> simp [h, ih]

theorem mem_of_getVal_eq_some {k : String} {v : α} :
    ∀ {l : List (String × α)}, getVal k l = some v → (k, v) ∈ l := by
  intro l
  induction l with
  | nil => intro h; exact absurd h (by simp [getVal])
  | cons p rest ih =>
    intro h
    obtain ⟨k₀, v₀⟩ := p
    by_cases hk : k₀ = k
    · subst hk
      rw [getVal_cons_eq] at h
      cases h
      exact List.mem_cons_self _ _
    · rw [getVal_cons_ne hk] at h
      exact List.mem_cons_of_mem _ (ih h)

/-- Truthiness of a dict read only depends on the defaulted value. -/
theorem truthy_eq_getD (o : Option String) : truthy o = (o.getD "" != "") := by
  cases o with
  | none => rfl
  | some s => by_cases h : s = "" <;> simp [truthy, h, bne]

/-- The retention filter only depends on the defaulted record view. -/
theorem keep_eq_defaulted (ci : Attrs) :
    keep ci = ((defaulted ci).name_zh != "" || (defaulted ci).name_en != "") := by
  simp only [keep, defaulted, truthy_eq_getD]

/-- Core per-node agreement: on a tag with standard attribute names
whose local-name attributes are non-empty when present, the two
strategies build dicts that agree on all six defaulted fields. -/
theorem defaulted_xml_eq_regex (a : Attrs) (h : stdTag a) :
    defaulted (xmlCountryInfo a) = defaulted (regexCountryInfo a) := by
  obtain ⟨hn, hzht, hzh⟩ := h
  have eId := searchAttrSuffix_eq_getVal "id" (by decide) a hn
  have eZht := searchAttrSuffix_eq_getVal "data-name_zht" (by decide) a hn
  have eZh := searchAttrSuffix_eq_getVal "data-name_zh" (by decide) a hn
  have eEn := searchAttrSuffix_eq_getVal "data-name_en" (by decide) a hn
  have eFo := searchAttrSuffix_eq_getVal "data-formal_en" (by decide) a hn
  have eTy := searchAttrSuffix_eq_getVal "data-type" (by decide) a hn
  have eSo := searchAttrSuffix_eq_getVal "data-sovereignt" (by decide) a hn
  obtain ⟨x1, x2, x3, x4, x5, x6⟩ := xmlCountryInfo_fields a
  obtain ⟨r1, r2, r3, r4, r5, r6⟩ := regexCountryInfo_fields a
  have hzEq : xmlNameZh a = (regexNameZh a).getD "" := by
    unfold xmlNameZh regexNameZh
    rw [eZht, eZh, eId]
    cases hz : getVal "data-name_zht" a with
    | some v =>
      have hv : v ≠ "" := hzht _ (mem_of_getVal_eq_some hz) rfl
      simp [hv]
    | none =>
      cases hz2 : getVal "data-name_zh" a with
      | some w =>
        have hw : w ≠ "" := hzh _ (mem_of_getVal_eq_some hz2) rfl
        simp [hw]
      | none =>
        cases hid : getVal "id" a with
        | none => simp
        | some u =>
          by_cases hu : u = ""
          · simp [hu]
          · simp [hu]
  unfold defaulted
  rw [x1, x2, x3, x4, x5, x6, r1, r2, r3, r4, r5, r6, eId, eEn, eFo, eTy, eSo]
  simp [hzEq]

/-- Per-node agreement of the retention decision. -/
theorem keep_xml_eq_regex (a : Attrs) (h : stdTag a) :
    keep (xmlCountryInfo a) = keep (regexCountryInfo a) := by
  rw [keep_eq_defaulted, keep_eq_defaulted, defaulted_xml_eq_regex a h]

/-- The retention test, spelled as the claim spells it: `name_zh` or
`name_en` non-empty after fallback resolution, a missing key counting
as empty. -/
theorem keep_true_iff (ci : Attrs) :
    keep ci = true ↔
      ((getVal "name_zh" ci).getD "" ≠ "" ∨ (getVal "name_en" ci).getD "" ≠ "") := by
  simp [keep, truthy_eq_getD]

/-! ## C1 -/

/-- Three nodes on which the two strategies disagree: a node carrying
only an id, one whose `data-name_zht` is present but empty, and one
with an attribute name that merely ends in `id`. -/
def c1Doc : List Attrs :=
  [[("id", "X")],
   [("id", "Y"), ("data-name_zht", "")],
   [("data-grid", "5"), ("id", "USA"), ("data-name_en", "United States")]]

/-- C1 fails as stated: the two extraction strategies do not produce
identical record sequences on equivalently rendered attribute data.
On `c1Doc` the XML strategy keeps three records and the regex strategy
keeps two (the empty `data-name_zht` suppresses the id fallback and the
record is filtered out on the regex side only); the node with only an
id is kept by both but with different key sets (the XML dict always
carries all six keys); and on the `data-grid` node even the defaulted
field values differ, because the regex id pattern matches inside
`data-grid="5"`. -/
theorem c1_counterexample :
    xmlRecords c1Doc ≠ regexRecords c1Doc ∧
    (xmlRecords c1Doc).length = 3 ∧
    (regexRecords c1Doc).length = 2 ∧
    (xmlRecords [[("id", "X")]]).map (fun ci => ci.map Prod.fst) ≠
      (regexRecords [[("id", "X")]]).map (fun ci => ci.map Prod.fst) ∧
    (xmlRecords [c1Doc[2]]).map defaulted ≠ (regexRecords [c1Doc[2]]).map defaulted := by
  refine ⟨by decide, by decide, by decide, by decide, by decide⟩

/-- C1 (amended): on nodes whose attribute names are the standard
seven and whose local-name attributes (`data-name_zht`,
`data-name_zh`), when present, are non-empty, the two strategies keep
the same nodes in the same order and agree on all six fields after
empty-string defaulting; they still differ in which keys are literally
present on a kept record (the XML dict always carries all six keys,
the regex dict only the matched ones). -/
theorem c1_extractors_agree_after_defaulting (doc : List Attrs)
    (h : ∀ a ∈ doc, stdTag a) :
    (xmlRecords doc).map defaulted = (regexRecords doc).map defaulted := by
  induction doc with
  | nil => rfl
  | cons a rest ih =>
    have ha : stdTag a := h a (List.mem_cons_self a rest)
    have hrest : ∀ b ∈ rest, stdTag b := fun b hb => h b (List.mem_cons_of_mem a hb)
    have hk := keep_xml_eq_regex a ha
    simp only [xmlRecords, regexRecords, List.filterMap_cons]
    cases hkx : keep (xmlCountryInfo a) with
    | false =>
      have hkr : keep (regexCountryInfo a) = false := by rw [← hk, hkx]
      simp only [hkx, hkr, if_neg Bool.false_ne_true]
      exact ih hrest
    | true =>
      have hkr : keep (regexCountryInfo a) = true := by rw [← hk, hkx]
      simp only [hkx, hkr, if_true, List.map_cons]
      rw [defaulted_xml_eq_regex a ha]
      have h' := ih hrest
      simp only [xmlRecords, regexRecords] at h'
      rw [h']

/-- Witness for C1 (amended) at a concrete well-formed document. -/
theorem c1_witness :
    (∀ a ∈ [[("id", "CHN"), ("data-name_zht", "中国"), ("data-name_en", "China")]], stdTag a) ∧
    (xmlRecords [[("id", "CHN"), ("data-name_zht", "中国"), ("data-name_en", "China")]]).map defaulted =
      (regexRecords [[("id", "CHN"), ("data-name_zht", "中国"), ("data-name_en", "China")]]).map defaulted :=
  ⟨by decide, c1_extractors_agree_after_defaulting _ (by decide)⟩

/-! ## C3 -/

/-- C3: in both strategies a record is in the output exactly when the
retention test passes on it — the output is the filtered image of the
node list — and every record in either output has `name_zh` or
`name_en` non-empty after fallback resolution (a missing key counts as
empty); a record with both empty is silently dropped, never returned. -/
theorem c3_nonempty_name_invariant (doc : List Attrs) :
    xmlRecords doc = (doc.map xmlCountryInfo).filter keep ∧
    regexRecords doc = (doc.map regexCountryInfo).filter keep ∧
    (∀ ci ∈ xmlRecords doc,
      (getVal "name_zh" ci).getD "" ≠ "" ∨ (getVal "name_en" ci).getD "" ≠ "") ∧
    (∀ ci ∈ regexRecords doc,
      (getVal "name_zh" ci).getD "" ≠ "" ∨ (getVal "name_en" ci).getD "" ≠ "") := by
  have hx := filterMap_keep_eq_filter_map xmlCountryInfo keep doc
  have hr := filterMap_keep_eq_filter_map regexCountryInfo keep doc
  refine ⟨hx, hr, ?_, ?_⟩
  · intro ci hci
    rw [xmlRecords, hx] at hci
    exact (keep_true_iff ci).mp (List.of_mem_filter hci)
  · intro ci hci
    rw [regexRecords, hr] at hci
    exact (keep_true_iff ci).mp (List.of_mem_filter hci)

/-- Witness for C3 at a concrete document: the retained record of a
one-node document satisfies the invariant, and the filter equations
hold there. -/
theorem c3_witness :
    ([[("id", "CHN"), ("name_zh", "CHN"), ("name_en", ""), ("formal_en", ""),
       ("type", ""), ("sovereignty", "")]] : List Attrs) = xmlRecords [[("id", "CHN")]] ∧
    ((getVal "name_zh" (xmlRecords [[("id", "CHN")]]).head!).getD "" ≠ "" ∨
      (getVal "name_en" (xmlRecords [[("id", "CHN")]]).head!).getD "" ≠ "") := by
  refine ⟨by decide, ?_⟩
  exact (c3_nonempty_name_invariant [[("id", "CHN")]]).2.2.1 _ (by decide)

/-! ## C4 -/

/-- C4: in both strategies `name_zh` follows the ordered fallback
chain `data-name_zht`, then `data-name_zh`, then the node id — for the
XML strategy through attribute lookup, for the regex strategy through
the lexical suffix search.  In particular a node with no local-name
attribute and a non-empty id gets `name_zh = id` (third and sixth
conjuncts). -/
theorem c4_name_local_fallback_chain (a : Attrs) :
    (∀ v, getVal "data-name_zht" a = some v → v ≠ "" →
      getVal "name_zh" (xmlCountryInfo a) = some v) ∧
    (getVal "data-name_zht" a = none →
      ∀ v, getVal "data-name_zh" a = some v → v ≠ "" →
      getVal "name_zh" (xmlCountryInfo a) = some v) ∧
    (getVal "data-name_zht" a = none → getVal "data-name_zh" a = none →
      ∀ v, getVal "id" a = some v → v ≠ "" →
      getVal "name_zh" (xmlCountryInfo a) = some v) ∧
    (∀ v, searchAttrSuffix "data-name_zht" a = some v →
      getVal "name_zh" (regexCountryInfo a) = some v) ∧
    (searchAttrSuffix "data-name_zht" a = none →
      ∀ v, searchAttrSuffix "data-name_zh" a = some v →
      getVal "name_zh" (regexCountryInfo a) = some v) ∧
    (searchAttrSuffix "data-name_zht" a = none → searchAttrSuffix "data-name_zh" a = none →
      ∀ v, searchAttrSuffix "id" a = some v → v ≠ "" →
      getVal "name_zh" (regexCountryInfo a) = some v) := by
  obtain ⟨_, x2, _, _, _, _⟩ := xmlCountryInfo_fields a
  obtain ⟨_, r2, _, _, _, _⟩ := regexCountryInfo_fields a
  refine ⟨?_, ?_, ?_, ?_, ?_, ?_⟩
  · intro v hv hne
    rw [x2]; unfold xmlNameZh; rw [hv]; simp [hne]
  · intro h0 v hv hne
    rw [x2]; unfold xmlNameZh; rw [h0, hv]; simp [hne]
  · intro h0 h1 v hv hne
    rw [x2]; unfold xmlNameZh; rw [h0, h1, hv]; simp [hne]
  · intro v hv
    rw [r2]; unfold regexNameZh; rw [hv]
  · intro h0 v hv
    rw [r2]; unfold regexNameZh; rw [h0, hv]
  · intro h0 h1 v hv hne
    rw [r2]; unfold regexNameZh; rw [h0, h1, hv]; simp [hne]

/-- Witness for C4: the id fallback fires in both strategies on a node
carrying only `id="XYZ"`, and the first chain link wins when
`data-name_zht` is present. -/
theorem c4_witness :
    getVal "name_zh" (xmlCountryInfo [("id", "XYZ")]) = some "XYZ" ∧
    getVal "name_zh" (regexCountryInfo [("id", "XYZ")]) = some "XYZ" ∧
    getVal "name_zh" (xmlCountryInfo [("id", "F"), ("data-name_zht", "法国")]) = some "法国" := by
  have h1 := c4_name_local_fallback_chain [("id", "XYZ")]
  have h2 := c4_name_local_fallback_chain [("id", "F"), ("data-name_zht", "法国")]
  exact ⟨h1.2.2.1 (by decide) (by decide) "XYZ" (by decide) (by decide),
         h1.2.2.2.2.2 (by decide) (by decide) "XYZ" (by decide) (by decide),
         h2.1 "法国" (by decide) (by decide)⟩

/-! ## C2 -/

/-- C2 fails as stated: not every failure of structured parsing is
recovered.  The `except` clause catches only `ET.ParseError`; on an
input path where `ET.parse` raises an OS-level error (for example a
missing file) `extract_countries_from_svg` propagates the exception to
its caller instead of delegating to the fallback extractor, and the
process aborts. -/
theorem c2_counterexample :
    extract_countries_from_svg ⟨.osError "FileNotFoundError", none⟩ =
      .error "FileNotFoundError" := rfl

/-- C2 (amended): when structured parsing fails with a markup
well-formedness error, extraction does not raise but returns exactly
the fallback extractor result; a successful parse also returns
normally; and an unreadable file in the fallback path itself yields
the empty record list rather than an error.  Only OS-level errors in
the primary path escape (see the counterexample). -/
theorem c2_parse_error_delegates_to_fallback (raw : Option (List Attrs)) (paths : List Attrs) :
    extract_countries_from_svg ⟨.malformed, raw⟩ = .ok (extract_countries_with_regex raw) ∧
    extract_countries_from_svg ⟨.ok paths, raw⟩ = .ok (xmlRecords paths) ∧
    extract_countries_with_regex none = [] :=
  ⟨rfl, rfl, rfl⟩

/-! ## C9 -/

/-- C9: the fallback extractor takes `id` from the first substring of
the tag of the form id="..." wherever it occurs.  On a tag whose first
such substring lies inside the attribute name `data-grid`, the
extracted id is that attribute value `"5"`, although the attribute
literally named `id` holds `"USA"`. -/
theorem c9_regex_id_first_occurrence :
    getVal "id" (regexCountryInfo
      [("data-grid", "5"), ("id", "USA"), ("data-name_en", "United States")]) = some "5" ∧
    getVal "id" [("data-grid", "5"), ("id", "USA"), ("data-name_en", "United States")] =
      some "USA" ∧
    ("5" : String) ≠ "USA" := by decide

/-! ## C7 -/

/-- C7: the CSV serializer always writes the fixed six-column header
first, then exactly one row per record in order; every row has exactly
six entries in the fixed order, a missing field contributing the empty
string, whatever subset of keys each record carries. -/
theorem c7_csv_fixed_columns (countries : List Attrs) :
    (save_to_csv countries).head? =
      some ["id", "name_zh", "name_en", "formal_en", "type", "sovereignty"] ∧
    (save_to_csv countries).length = countries.length + 1 ∧
    (save_to_csv countries).all (fun r => r.length == 6) = true ∧
    ∀ i : Nat, (save_to_csv countries)[i + 1]? =
      (countries[i]?).map fun ci => csvFields.map fun f => (getVal f ci).getD "" := by
  refine ⟨rfl, by simp [save_to_csv], ?_, ?_⟩
  · simp only [save_to_csv, List.all_cons, List.all_eq_true, Bool.and_eq_true, beq_iff_eq]
    refine ⟨by decide, ?_⟩
    intro r hr
    obtain ⟨ci, _, hci⟩ := List.mem_map.mp hr
    rw [← hci]
    simp [csvRow, csvFields]
  · intro i
    simp only [save_to_csv, List.getElem?_cons_succ, List.getElem?_map]
    cases countries[i]? <;> simp [csvRow]

/-! ## C10 -/

/-! ## C8 and C5: the structured serializer -/

/-- One serialized record read back gives exactly the original dict. -/
theorem readJsonRecord_roundtrip (ci : Attrs) :
    readJsonRecord (JsonVal.obj (ci.map fun p => (p.1, JsonVal.str p.2))) = some ci := by
  show (ci.map fun p => (p.1, JsonVal.str p.2)).foldr
      (fun p acc =>
        match readJsonString p.2, acc with
        | some v, some rest => some ((p.1, v) :: rest)
        | _, _ => none)
      (some []) = some ci
  induction ci with
  | nil => rfl
  | cons p rest ih =>
    rw [List.map_cons, List.foldr_cons, ih]
    rfl

/-- C8: writing a record sequence with the structured serializer and
re-reading the file with a JSON parser recovers the identical
sequence — same record order, same key/value pairs per record, all
Unicode strings intact (the value tree stores them verbatim).  The
text layer of the stdlib codec is modelled as faithful to the value
tree, which is its documented contract. -/
theorem c8_json_roundtrip (countries : List Attrs) :
    readJsonCountries (save_to_json countries) = some countries := by
  show (countries.map fun ci => JsonVal.obj (ci.map fun p => (p.1, JsonVal.str p.2))).foldr
      (fun x acc =>
        match readJsonRecord x, acc with
        | some r, some rest => some (r :: rest)
        | _, _ => none)
      (some []) = some countries
  induction countries with
  | nil => rfl
  | cons ci rest ih =>
    simp only [List.map_cons, List.foldr_cons, ih, readJsonRecord_roundtrip]

/-- C5 fails as stated: a record produced by the fallback extractor
can lack fields, and `json.dump` writes each dict with exactly its own
keys, so the structured output does not contain the full six-field set
for every record.  A fallback record extracted from a tag carrying
only an id is serialized with the two keys `id` and `name_zh`. -/
theorem c5_counterexample :
    (jsonElems (save_to_json (extract_countries_with_regex (some [[("id", "X")]])))).map
        jsonObjKeys = [["id", "name_zh"]] ∧
    ¬ "name_en" ∈ (["id", "name_zh"] : List String) := by
  refine ⟨by decide, by decide⟩

/-- A character the encoder writes verbatim. -/
def cleanChar (c : Char) : Prop := c ≠ '\"' ∧ c ≠ '\\' ∧ 32 ≤ c.toNat

instance (c : Char) : Decidable (cleanChar c) := by
  unfold cleanChar; infer_instance

/-- The encoder escapes nothing in a clean character. -/
theorem jsonEscapeChar_clean (c : Char) (h : cleanChar c) :
    jsonEscapeChar c = String.mk [c] := by
  obtain ⟨h1, h2, h3⟩ := h
  have hn : c ≠ '\n' := by intro hc; subst hc; exact absurd h3 (by decide)
  have ht : c ≠ '\t' := by intro hc; subst hc; exact absurd h3 (by decide)
  have hr : c ≠ '\r' := by intro hc; subst hc; exact absurd h3 (by decide)
  have hb : c ≠ Char.ofNat 8 := by intro hc; subst hc; exact absurd h3 (by decide)
  have hf : c ≠ Char.ofNat 12 := by intro hc; subst hc; exact absurd h3 (by decide)
  simp [jsonEscapeChar, h1, h2, hn, ht, hr, hb, hf, Nat.not_lt.mpr h3]

/-- C5 (amended): the structured output serializes each record with
exactly the keys that record carries, in insertion order, one JSON
object per record in sequence order — records from the XML strategy
therefore carry all six fields, while fallback records may carry
fewer — and the `ensure_ascii=False` encoder writes every string made
of clean characters (no quote, no backslash, no control character)
completely unescaped, so arbitrary Unicode text passes through
verbatim. -/
theorem c5_json_fields_order_unicode (countries : List Attrs) (s : String) :
    (jsonElems (save_to_json countries)).map jsonObjKeys =
      countries.map (fun ci => ci.map Prod.fst) ∧
    (∀ doc : List Attrs, ∀ ci ∈ xmlRecords doc,
      ci.map Prod.fst = ["id", "name_zh", "name_en", "formal_en", "type", "sovereignty"]) ∧
    ((∀ c ∈ s.data, cleanChar c) → jsonRenderString s = "\"" ++ s ++ "\"") := by
  refine ⟨?_, ?_, ?_⟩
  · simp [save_to_json, jsonElems, jsonObjKeys, List.map_map, Function.comp]
  · intro doc ci hci
    rw [xmlRecords] at hci
    obtain ⟨a, _, ha⟩ := List.mem_filterMap.mp hci
    by_cases hk : keep (xmlCountryInfo a)
    · simp only [hk, if_true] at ha
      cases ha
      rfl
    · simp [hk] at ha
  · intro hclean
    have hjoin : ∀ l : List Char, (∀ c ∈ l, cleanChar c) →
        (l.map jsonEscapeChar).foldr (· ++ ·) "" = String.mk l := by
      intro l
      induction l with
      | nil => intro _; rfl
      | cons c rest ih =>
        intro hl
        have hc := hl c (List.mem_cons_self _ _)
        have hrest := fun d hd => hl d (List.mem_cons_of_mem _ hd)
        simp only [List.map_cons, List.foldr_cons, ih hrest, jsonEscapeChar_clean c hc]
        rfl
    unfold jsonRenderString
    rw [hjoin s.data hclean]

/-- Witness for C5 (amended): a record kept by the XML strategy
carries all six keys, and a Chinese-text string is rendered without
any escaping. -/
theorem c5_witness :
    ((xmlRecords [[("id", "CHN")]]).head!).map Prod.fst =
      ["id", "name_zh", "name_en", "formal_en", "type", "sovereignty"] ∧
    jsonRenderString "中国" = "\"中国\"" := by
  have h := c5_json_fields_order_unicode [] "中国"
  exact ⟨h.2.1 [[("id", "CHN")]] _ (by decide), h.2.2 (by decide)⟩

/-! ## C6: the type-frequency report -/

theorem getVal_bump_self (l : String) :
    ∀ m : List (String × Nat), getVal l (bump m l) = some ((getVal l m).getD 0 + 1) := by
  intro m
  induction m with
  | nil => simp [bump, getVal]
  | cons p rest ih =>
    obtain ⟨k, c⟩ := p
    by_cases hk : k = l
    · subst hk
      simp [bump, getVal]
    · simp [bump, getVal, hk, ih]

theorem getVal_bump_ne (h : l' ≠ l) :
    ∀ m : List (String × Nat), getVal l' (bump m l) = getVal l' m := by
  intro m
  induction m with
  | nil => simp [bump, getVal, Ne.symm h]
  | cons p rest ih =>
    obtain ⟨k, c⟩ := p
    by_cases hk : k = l
    · subst hk
      simp [bump, getVal, Ne.symm h]
    · simp [bump, getVal, hk, ih]

/-- Keys of the counter dict after an update: unchanged when the label
is already a key, the label appended otherwise. -/
theorem bump_keys (l : String) :
    ∀ m : List (String × Nat),
      (bump m l).map Prod.fst =
        if l ∈ m.map Prod.fst then m.map Prod.fst else m.map Prod.fst ++ [l] := by
  intro m
  induction m with
  | nil => simp [bump]
  | cons p rest ih =>
    obtain ⟨k, c⟩ := p
    by_cases hk : k = l
    · subst hk
      simp [bump]
    · have hlk : ¬ l = k := fun hh => hk hh.symm
      simp [bump, hk, ih, hlk]
      by_cases hl : l ∈ rest.map Prod.fst <;> simp [hl, hlk]

theorem bump_keys_nodup (l : String) (m : List (String × Nat))
    (h : (m.map Prod.fst).Nodup) : ((bump m l).map Prod.fst).Nodup := by
  rw [bump_keys]
  by_cases hl : l ∈ m.map Prod.fst
  · simpa [hl]
  · simpa [hl, List.nodup_append] using h

/-- The running count stored under each label. -/
theorem foldl_bump_getD (l : String) :
    ∀ (cs : List Attrs) (m : List (String × Nat)),
      (getVal l (cs.foldl (fun m ci => bump m (typeLabel ci)) m)).getD 0 =
        (getVal l m).getD 0 + labelCount cs l := by
  intro cs
  induction cs with
  | nil => intro m; simp [labelCount]
  | cons ci rest ih =>
    intro m
    rw [List.foldl_cons, ih]
    by_cases h : typeLabel ci = l
    · subst h
      rw [getVal_bump_self]
      simp [labelCount, List.countP_cons]
      omega
    · rw [getVal_bump_ne (fun hh => h hh.symm)]
      simp [labelCount, List.countP_cons, h]

/-- A label is absent from the counter exactly when it was absent at
the start and never occurred. -/
theorem foldl_bump_none_iff (l : String) :
    ∀ (cs : List Attrs) (m : List (String × Nat)),
      getVal l (cs.foldl (fun m ci => bump m (typeLabel ci)) m) = none ↔
        (getVal l m = none ∧ labelCount cs l = 0) := by
  intro cs
  induction cs with
  | nil => intro m; simp [labelCount]
  | cons ci rest ih =>
    intro m
    rw [List.foldl_cons, ih]
    by_cases h : typeLabel ci = l
    · subst h
      rw [getVal_bump_self]
      simp [labelCount, List.countP_cons]
    · rw [getVal_bump_ne (fun hh => h hh.symm)]
      simp [labelCount, List.countP_cons, h]

/-- Content of the `type_counts` dict, per label. -/
theorem type_counts_getVal (cs : List Attrs) (l : String) :
    getVal l (type_counts cs) =
      if labelCount cs l = 0 then none else some (labelCount cs l) := by
  unfold type_counts
  by_cases h : labelCount cs l = 0
  · rw [if_pos h]
    exact (foldl_bump_none_iff l cs []).mpr ⟨rfl, h⟩
  · rw [if_neg h]
    have hg := foldl_bump_getD l cs []
    have hne : getVal l (cs.foldl (fun m ci => bump m (typeLabel ci)) []) ≠ none := by
      intro hn
      exact h ((foldl_bump_none_iff l cs []).mp hn).2
    cases hv : getVal l (cs.foldl (fun m ci => bump m (typeLabel ci)) []) with
    | none => exact absurd hv hne
    | some v =>
      rw [hv] at hg
      simp only [Option.getD_some, getVal_nil, Option.getD_none, Nat.zero_add] at hg
      rw [hg]

theorem type_counts_keys_nodup (cs : List Attrs) :
    ((type_counts cs).map Prod.fst).Nodup := by
  unfold type_counts
  have : ∀ m : List (String × Nat), (m.map Prod.fst).Nodup →
      (((cs.foldl (fun m ci => bump m (typeLabel ci)) m)).map Prod.fst).Nodup := by
    induction cs with
    | nil => intro m hm; simpa
    | cons ci rest ih =>
      intro m hm
      rw [List.foldl_cons]
      exact ih _ (bump_keys_nodup _ _ hm)
  exact this [] (by simp)

theorem getVal_eq_none_iff (l : String) :
    ∀ m : List (String × α), getVal l m = none ↔ l ∉ m.map Prod.fst := by
  intro m
  induction m with
  | nil => simp [getVal]
  | cons p rest ih =>
    obtain ⟨k, v⟩ := p
    by_cases hk : k = l
    · subst hk
      simp [getVal]
    · have hlk : ¬ l = k := fun hh => hk hh.symm
      simp [getVal, hk, ih, hlk]

theorem getVal_eq_some_iff_mem (l : String) (v : α) :
    ∀ m : List (String × α), (m.map Prod.fst).Nodup →
      (getVal l m = some v ↔ (l, v) ∈ m) := by
  intro m
  induction m with
  | nil => intro _; simp [getVal]
  | cons p rest ih =>
    intro hm
    obtain ⟨k, w⟩ := p
    simp only [List.map_cons, List.nodup_cons] at hm
    obtain ⟨hk_not, hrest⟩ := hm
    by_cases hk : k = l
    · subst hk
      rw [getVal_cons_eq]
      constructor
      · intro hv
        cases hv
        exact List.mem_cons_self _ _
      · intro hmem
        rcases List.mem_cons.mp hmem with heq | hmem'
        · rw [Prod.mk.injEq] at heq
          rw [heq.2]
        · exact absurd (List.mem_map_of_mem Prod.fst hmem') hk_not
    · rw [getVal_cons_ne hk, ih hrest]
      constructor
      · exact fun hmem => List.mem_cons_of_mem _ hmem
      · intro hmem
        rcases List.mem_cons.mp hmem with heq | hmem'
        · exact absurd (congrArg Prod.fst heq).symm hk
        · exact hmem'

/-- Sorting the counter items does not change any label lookup, since
the dict keys are pairwise distinct. -/
theorem type_report_getVal (cs : List Attrs) (l : String) :
    getVal l (type_report cs) = getVal l (type_counts cs) := by
  have hperm : List.Perm (type_report cs) (type_counts cs) := List.perm_insertionSort _ _
  have hkeys : List.Perm ((type_report cs).map Prod.fst) ((type_counts cs).map Prod.fst) :=
    hperm.map Prod.fst
  have hn : ((type_counts cs).map Prod.fst).Nodup := type_counts_keys_nodup cs
  have hn' : ((type_report cs).map Prod.fst).Nodup := hkeys.nodup_iff.mpr hn
  cases hv : getVal l (type_counts cs) with
  | none =>
    rw [getVal_eq_none_iff] at hv ⊢
    exact fun hmem => hv (hkeys.mem_iff.mp hmem)
  | some v =>
    rw [getVal_eq_some_iff_mem l v _ hn] at hv
    rw [getVal_eq_some_iff_mem l v _ hn']
    exact hperm.mem_iff.mpr hv

/-- C6 fails as stated: the unknown label catches only records whose
dict lacks the `type` key.  A record built by the XML strategy from a
node with no `data-type` attribute has `type` present as the empty
string, so it lacks a type classification yet is counted under the
empty label, and the unknown label never appears. -/
theorem c6_counterexample :
    getVal "type" (xmlRecords [[("id", "X")]]).head! = some "" ∧
    type_report (xmlRecords [[("id", "X")]]) = [("", 1)] ∧
    getVal "未知" (type_report (xmlRecords [[("id", "X")]])) = none := by
  refine ⟨by decide, by decide, by decide⟩

/-- C6 (amended): the report is printed sorted ascending by type
label, and each printed label carries the number of records whose
label it is, where the label of a record is its `type` value when the
key is present — the empty string for XML-strategy records with no
type attribute — and the explicit unknown label 未知 only when the
`type` key is absent (as on fallback-strategy records whose tag had no
`data-type` match). -/
theorem c6_type_report_sorted_and_counts (cs : List Attrs) :
    List.Sorted reportLe (type_report cs) ∧
    (∀ l, getVal l (type_report cs) =
      if labelCount cs l = 0 then none else some (labelCount cs l)) ∧
    (∀ ci ∈ cs, getVal "type" ci = none → typeLabel ci = "未知") := by
  refine ⟨List.sorted_insertionSort reportLe (type_counts cs), ?_, ?_⟩
  · intro l
    rw [type_report_getVal, type_counts_getVal]
  · intro ci _ hnone
    simp [typeLabel, hnone]

/-- Witness for C6 (amended) on a mixed concrete record list: a
fallback record lacking the `type` key is counted under 未知 and the
labels come out in ascending order. -/
theorem c6_witness :
    getVal "type" ([("id", "X"), ("name_zh", "X")] : Attrs) = none ∧
    typeLabel [("id", "X"), ("name_zh", "X")] = "未知" ∧
    getVal "未知"
      (type_report [[("id", "X"), ("name_zh", "X")],
                    [("id", "Y"), ("name_zh", "Y"), ("type", "Sovereign country")]]) =
      some 1 := by
  have h := c6_type_report_sorted_and_counts
    [[("id", "X"), ("name_zh", "X")],
     [("id", "Y"), ("name_zh", "Y"), ("type", "Sovereign country")]]
  refine ⟨by decide, h.2.2 _ (by decide) (by decide), ?_⟩
  rw [h.2.1 "未知"]
  decide

/-- C10: a display limit of `0` is falsy in the source conditions on
lines 183 and 200, so `print_countries_table` behaves exactly as with
no limit: every record becomes a printed row and no omitted-count
trailer is emitted, also on non-empty sequences. -/
theorem c10_limit_zero_prints_everything (countries : List Attrs) :
    print_countries_table countries (some 0) = print_countries_table countries none ∧
    (print_countries_table countries (some 0)).rows.length = countries.length ∧
    (print_countries_table countries (some 0)).omitted = none := by
  refine ⟨rfl, ?_, rfl⟩
  simp [print_countries_table, limitTruthy]

